import Mathlib

/-!
Verification development for the PDF sanitization engine of cleanpdf-org
(`src/workers/pdf.worker.ts`).

The worker operates on a `Uint8Array`.  Its byte-level path converts the
buffer to a Latin-1 string (a 1:1 byte-to-char mapping), runs a fixed
catalog of JavaScript regular expressions over that string, and writes
same-length replacements back into a copy of the buffer, skipping matches
whose start offset lies inside a protected (binary) `stream ... endstream`
region.

We embed buffers as `List Nat` (byte values).  Each regular expression of
the source is embedded as an explicit matcher `Bytes → Nat → Option Nat`
returning the length of the (backtracking-faithful) match starting at a
given offset; the repeated-`exec` loop of the source becomes `execAll`,
which scans left to right and restarts after each match, exactly like a
JavaScript global regex.  Mutations become an explicit list of `Edit`s
(start offset plus replacement bytes of the same length as the match),
applied in source order.
-/

namespace CleanPDF

/-- A byte buffer (`Uint8Array` in the source); entries are byte values. -/
abbrev Bytes := List Nat

/-- JavaScript `\s` restricted to Latin-1 code points: tab, LF, VT, FF, CR,
space and NBSP (U+00A0). -/
def isSpaceCode (c : Nat) : Bool :=
  c == 9 || c == 10 || c == 11 || c == 12 || c == 13 || c == 32 || c == 160

/-- JavaScript `\d`: the ASCII digits. -/
def isDigitCode (c : Nat) : Bool :=
  48 ≤ c && c ≤ 57

/-- Code points of a Lean string literal, used to transcribe the literal
fragments of the source regexes and replacement strings. -/
def str (s : String) : Bytes :=
  s.toList.map Char.toNat

/-- ASCII lower-casing, the case folding performed by the `i` flag of the
source regexes on their (all-ASCII) pattern characters. -/
def lowerCode (c : Nat) : Nat :=
  if 65 ≤ c ∧ c ≤ 90 then c + 32 else c

/-- The literal `lit` occurs in `s` starting at offset `pos`. -/
def litAt (s : Bytes) (pos : Nat) (lit : Bytes) : Bool :=
  List.isPrefixOf lit (s.drop pos)

/-- Case-insensitive variant of `litAt` (for the source's `i`-flag regexes). -/
def litAtCI (s : Bytes) (pos : Nat) (lit : Bytes) : Bool :=
  ((s.drop pos).take lit.length).map lowerCode == lit.map lowerCode

/-- Length of the run of characters satisfying `p` in `s` starting at `pos`
(the length a greedy character-class repetition consumes). -/
def runLen (p : Nat → Bool) (s : Bytes) (pos : Nat) : Nat :=
  ((s.drop pos).takeWhile p).length

/-- `s.substring(pos, pos+len)` as bytes. -/
def sliceB (s : Bytes) (pos len : Nat) : Bytes :=
  (s.drop pos).take len

/-- `a.includes(b)` on byte strings: `b` occurs at some offset of `a`. -/
def containsSub (l sub : Bytes) : Bool :=
  (List.range (l.length + 1)).any (fun i => litAt l i sub)

/-- JavaScript `String.prototype.trim` on Latin-1 text (whitespace at both
ends removed). -/
def trimWs (l : Bytes) : Bytes :=
  ((l.dropWhile isSpaceCode).reverse.dropWhile isSpaceCode).reverse

/-- First offset `≥ pos` at which the literal `lit` occurs in `s`
(the `lastIndex`-directed `exec` of a literal pattern); fuel-driven scan. -/
def findLitFromGo (s lit : Bytes) : Nat → Nat → Option Nat
  | 0, _ => none
  | fuel + 1, pos =>
    if litAt s pos lit then some pos else findLitFromGo s lit fuel (pos + 1)

/-- First occurrence of `lit` in `s` at offset `≥ pos`. -/
def findLitFrom (s lit : Bytes) (pos : Nat) : Option Nat :=
  findLitFromGo s lit (s.length + 1) pos

/-- The repeated `exec` loop of a global JavaScript regex: scan left to
right, report each match as `(offset, length)`, resume after its end
(advancing at least one position, as the engine does for empty matches). -/
def execAllGo (matchAt : Nat → Option Nat) : Nat → Nat → List (Nat × Nat)
  | 0, _ => []
  | fuel + 1, pos =>
    match matchAt pos with
    | some len => (pos, len) :: execAllGo matchAt fuel (pos + Nat.max len 1)
    | none => execAllGo matchAt fuel (pos + 1)

/-- All matches of a pattern in `s`, in order. -/
def execAll (matchAt : Nat → Option Nat) (s : Bytes) : List (Nat × Nat) :=
  execAllGo matchAt (s.length + 1) 0

/-- `stream\s*\r?\n`: the keyword `stream`, then the greedy whitespace run,
backtracking so that the match ends just after the last line feed inside
that run (the backtracking-faithful reading of the source pattern). -/
def matchStreamKeyword (s : Bytes) (pos : Nat) : Option Nat :=
  if litAt s pos (str "stream") then
    let run := (s.drop (pos + 6)).takeWhile isSpaceCode
    if run.contains 10 then
      some (6 + run.length - run.reverse.indexOf 10)
    else none
  else none

/-- A `stream ... endstream` region found by `findProtectedStreams`:
`[start, end)` over the raw buffer, plus the subtype tag used for special
handling (`"XML"`, `"Metadata"`, or `none` for protected binary data). -/
structure StreamRange where
  start : Nat
  «end» : Nat
  subtype : Option String
deriving DecidableEq, Repr

/-- The per-stream body of `findProtectedStreams`: pair one stream start
with its matching `endstream` (dropped when unterminated) and classify it
from the 500 bytes before the stream keyword and the first 500 bytes of
stream content, exactly as the source does. -/
def mkStreamRange (pdfStr : Bytes) (streamStart : Nat) : Option StreamRange :=
  match findLitFrom pdfStr (str "endstream") streamStart with
  | none => none
  | some endIdx =>
    let beforeStream := (pdfStr.take streamStart).drop (streamStart - 500)
    let isXFA := containsSub beforeStream (str "/Subtype /XML")
      || containsSub beforeStream (str "/XFA")
      || containsSub beforeStream (str "/AcroForm")
    let isMetadata := containsSub beforeStream (str "/Type /Metadata")
      || containsSub beforeStream (str "/Metadata")
    let streamContentStart := sliceB pdfStr streamStart (Nat.min 500 (endIdx - streamStart))
    let contentStartsWithXML :=
      litAt (trimWs streamContentStart) 0 (str "<?xml")
      || litAt (trimWs streamContentStart) 0 (str "<xdp:xdp")
      || litAt (trimWs streamContentStart) 0 (str "<template")
      || containsSub streamContentStart (str "<x:xmpmeta")
      || containsSub streamContentStart (str "<rdf:RDF")
    some { start := streamStart
           «end» := endIdx
           subtype :=
             if isXFA || contentStartsWithXML then some "XML"
             else if isMetadata then some "Metadata"
             else none }

/-- `findProtectedStreams`: locate every `stream\s*\r?\n ... endstream`
block of the buffer (`String.fromCharCode` is the identity embedding on
byte values, so the string scan is a scan of the bytes themselves). -/
def findProtectedStreams (pdfBytes : Bytes) : List StreamRange :=
  let pdfStr := pdfBytes
  let streamStarts :=
    (execAll (matchStreamKeyword pdfStr) pdfStr).map (fun m => m.1 + m.2)
  streamStarts.filterMap (mkStreamRange pdfStr)

/-- `isProtected`: the offset lies in some region with no subtype
(XML and Metadata streams are not protected). -/
def isProtected (pos : Nat) (ranges : List StreamRange) : Bool :=
  ranges.any (fun r => pos ≥ r.start && pos < r.«end» && r.subtype.isNone)

/-- `bytesToString`: the Latin-1 byte-to-char conversion of the source
(`String.fromCharCode(b & 0xFF)`), preserving offsets 1:1. -/
def bytesToString (bytes : Bytes) : Bytes :=
  bytes.map (fun b => b % 256)

/-- `stringToBytes`: the inverse conversion (`charCodeAt(0) & 0xFF`). -/
def stringToBytes (s : Bytes) : Bytes :=
  s.map (fun c => c % 256)

/-! ### The individual regex matchers of `cleanPDFBytes`

Each matcher embeds one regular expression of the source, returning the
length of the match starting at the given offset, or `none`.  Greedy
character-class repetitions followed by disjoint continuations are
deterministic; where the source pattern genuinely backtracks (`[^>]*`
followed by a literal that may occur anywhere in the run), the matcher
tries the split points in the engine's greedy order, longest first. -/

/-- `<<[^>]*>>` at `pos`: the non-nested dictionary tail used by several
source patterns.  The greedy `[^>]*` is forced to the maximal run of
non-`>` characters, after which `>>` must follow literally. -/
def dictTail (s : Bytes) (pos : Nat) : Option Nat :=
  if litAt s pos (str "<<") then
    let t := runLen (fun c => c != 62) s (pos + 2)
    if litAt s (pos + 2 + t) (str ">>") then some (2 + t + 2) else none
  else none

/-- `KEY\s*<<[^>]*>>` — the shape of the `/AA` (STEP 2) and `/AcroForm`
(STEP 8) patterns. -/
def matchKeyDict (key : Bytes) (s : Bytes) (pos : Nat) : Option Nat :=
  if litAt s pos key then
    let w := runLen isSpaceCode s (pos + key.length)
    (dictTail s (pos + key.length + w)).map (fun d => key.length + w + d)
  else none

/-- `\d+\s+\d+\s+R` at `pos`: an indirect-reference triple. -/
def matchRefTriple (s : Bytes) (pos : Nat) : Option Nat :=
  let d1 := runLen isDigitCode s pos
  if d1 == 0 then none else
  let w1 := runLen isSpaceCode s (pos + d1)
  if w1 == 0 then none else
  let d2 := runLen isDigitCode s (pos + d1 + w1)
  if d2 == 0 then none else
  let w2 := runLen isSpaceCode s (pos + d1 + w1 + d2)
  if w2 == 0 then none else
  if s.get? (pos + d1 + w1 + d2 + w2) == some 82 then
    some (d1 + w1 + d2 + w2 + 1)
  else none

/-- STEP 1 pattern `\/OpenAction\s*(<<[^>]*>>|\d+\s+\d+\s+R)`. -/
def matchOpenAction (s : Bytes) (pos : Nat) : Option Nat :=
  if litAt s pos (str "/OpenAction") then
    let w := runLen isSpaceCode s (pos + 11)
    match dictTail s (pos + 11 + w) with
    | some d => some (11 + w + d)
    | none => (matchRefTriple s (pos + 11 + w)).map (fun r => 11 + w + r)
  else none

/-- Tail `\/JavaScript\s*<<[^>]*>>` of the STEP 3 pattern, at `pos`. -/
def namesJsTail (s : Bytes) (pos : Nat) : Option Nat :=
  if litAt s pos (str "/JavaScript") then
    let w := runLen isSpaceCode s (pos + 11)
    (dictTail s (pos + 11 + w)).map (fun d => 11 + w + d)
  else none

/-- STEP 3 pattern `\/Names\s*<<[^>]*\/JavaScript\s*<<[^>]*>>`: the greedy
`[^>]*` backtracks to the last `/JavaScript` occurrence inside the run for
which the rest of the pattern succeeds. -/
def matchNamesJs (s : Bytes) (pos : Nat) : Option Nat :=
  if litAt s pos (str "/Names") then
    let w := runLen isSpaceCode s (pos + 6)
    if litAt s (pos + 6 + w) (str "<<") then
      let base := pos + 6 + w + 2
      let r := runLen (fun c => c != 62) s base
      ((List.range (r + 1)).reverse.findSome? (fun j =>
        (namesJsTail s (base + j)).map (fun tl => 6 + w + 2 + j + tl)))
    else none
  else none

/-- STEP 4 pattern `\/XFA\s*\d+\s+\d+\s+R`. -/
def matchXfaRef (s : Bytes) (pos : Nat) : Option Nat :=
  if litAt s pos (str "/XFA") then
    let w := runLen isSpaceCode s (pos + 4)
    (matchRefTriple s (pos + 4 + w)).map (fun r => 4 + w + r)
  else none

/-- STEP 6 pattern `\/JS\s*\([^)]*\)[\s\r\n]*` (case-insensitive);
`[\s\r\n]*` is just a greedy whitespace run. -/
def matchJsLit (s : Bytes) (pos : Nat) : Option Nat :=
  if litAtCI s pos (str "/JS") then
    let w := runLen isSpaceCode s (pos + 3)
    if s.get? (pos + 3 + w) == some 40 then
      let t := runLen (fun c => c != 41) s (pos + 3 + w + 1)
      if s.get? (pos + 3 + w + 1 + t) == some 41 then
        let tr := runLen isSpaceCode s (pos + 3 + w + 1 + t + 1)
        some (3 + w + 1 + t + 1 + tr)
      else none
    else none
  else none

/-- STEP 5 pattern `(\/S\s+)TYPE` for one dangerous action type: `/S`, at
least one whitespace character (the captured prefix), then the type. -/
def matchAction (typ : Bytes) (s : Bytes) (pos : Nat) : Option Nat :=
  if litAt s pos (str "/S") then
    let w := runLen isSpaceCode s (pos + 2)
    if w == 0 then none
    else if litAt s (pos + 2 + w) typ then some (2 + w + typ.length)
    else none
  else none

/-- Character class `[^\s"'>\)]` of the bare-URL pattern (STEP 7). -/
def urlStopChar (c : Nat) : Bool :=
  isSpaceCode c || c == 34 || c == 39 || c == 62 || c == 41

/-- Character class `[^\s"'>]` of the UNC-URL pattern and of the inline
URL replacement inside XFA submit tags. -/
def uncStopChar (c : Nat) : Bool :=
  isSpaceCode c || c == 34 || c == 39 || c == 62

/-- `https?:\/\/[^…]+` (case-insensitive) where `stop` is the excluded
character class of the final repetition. -/
def matchHttpUrl (stop : Nat → Bool) (s : Bytes) (pos : Nat) : Option Nat :=
  if litAtCI s pos (str "http") then
    let afterScheme : Option Nat :=
      if lowerCode ((s.get? (pos + 4)).getD 0) == 115
          && litAt s (pos + 5) (str "://") then some (pos + 8)
      else if litAt s (pos + 4) (str "://") then some (pos + 7)
      else none
    match afterScheme with
    | some p =>
      let t := runLen (fun c => !(stop c)) s p
      if t == 0 then none else some (p - pos + t)
    | none => none
  else none

/-- `\\\\+https?:\/\/[^\s"'>]+` (STEP 7, UNC paths): two or more
backslashes, then an HTTP(S) URL. -/
def matchUncUrl (s : Bytes) (pos : Nat) : Option Nat :=
  if s.get? pos == some 92 then
    let k := runLen (fun c => c == 92) s (pos + 1)
    if k == 0 then none else
    (matchHttpUrl uncStopChar s (pos + 1 + k)).map (fun u => 1 + k + u)
  else none

/-- The 30-character look-behind of the bare-URL rule: the source skips a
URL when `xmlns=` or `xmlns:` occurs in the 30 characters before it. -/
def xmlnsBefore (s : Bytes) (i : Nat) : Bool :=
  let beforeUrl := (s.take i).drop (i - 30)
  containsSub beforeUrl (str "xmlns=") || containsSub beforeUrl (str "xmlns:")

/-- Tail `ATTR\s*=\s*["'][^"']*http[^"']*["'][^>]*>` of the XFA submit-URL
patterns, at `pos`; returns the length from `pos`.  The greedy `[^"']*`
before `http` backtracks longest-first; the repetitions after `http` are
deterministic. -/
def attrUrlTail (attr : Bytes) (s : Bytes) (pos : Nat) : Option Nat :=
  if litAtCI s pos attr then
    let w1 := runLen isSpaceCode s (pos + attr.length)
    if s.get? (pos + attr.length + w1) == some 61 then
      let w2 := runLen isSpaceCode s (pos + attr.length + w1 + 1)
      let q := pos + attr.length + w1 + 1 + w2
      if (s.get? q == some 34) || (s.get? q == some 39) then
        let r2 := runLen (fun c => c != 34 && c != 39) s (q + 1)
        ((List.range (r2 + 1)).reverse.findSome? (fun j =>
          if litAtCI s (q + 1 + j) (str "http") then
            let t2 := runLen (fun c => c != 34 && c != 39) s (q + 1 + j + 4)
            let qp := q + 1 + j + 4 + t2
            if (s.get? qp == some 34) || (s.get? qp == some 39) then
              let t3 := runLen (fun c => c != 62) s (qp + 1)
              if s.get? (qp + 1 + t3) == some 62 then
                some (qp + 1 + t3 + 1 - pos)
              else none
            else none
          else none))
      else none
    else none
  else none

/-- STEP 4 XFA submit-URL patterns
`<submit[^>]*target\s*=\s*["'][^"']*http[^"']*["'][^>]*>` and its
`href` / `xdp:submit` variants (case-insensitive). -/
def matchSubmitUrlTag (tag attr : Bytes) (s : Bytes) (pos : Nat) : Option Nat :=
  if litAtCI s pos tag then
    let base := pos + tag.length
    let r1 := runLen (fun c => c != 62) s base
    ((List.range (r1 + 1)).reverse.findSome? (fun j =>
      (attrUrlTail attr s (base + j)).map (fun tl => tag.length + j + tl)))
  else none

/-- STEP 4 lazy multi-line tag pattern `<submit[\s\S]*?>` (and the
`xdp:submit` variant): the opening literal, then everything up to the
first `>`. -/
def matchLazyTag (opentag : Bytes) (s : Bytes) (pos : Nat) : Option Nat :=
  if litAtCI s pos opentag then
    match findLitFrom s (str ">") (pos + opentag.length) with
    | some gi => some (gi + 1 - pos)
    | none => none
  else none

/-- A case-insensitive literal pattern (the closing submit tags). -/
def matchLitCI (lit : Bytes) (s : Bytes) (pos : Nat) : Option Nat :=
  if litAtCI s pos lit then some lit.length else none

/-- STEP 4 pattern
`<\?xml-stylesheet[^>]*href\s*=\s*["'][^"']*["'][^>]*\?>`
(case-insensitive). -/
def matchStylesheet (s : Bytes) (pos : Nat) : Option Nat :=
  if litAtCI s pos (str "<?xml-stylesheet") then
    let base := pos + 16
    let r1 := runLen (fun c => c != 62) s base
    ((List.range (r1 + 1)).reverse.findSome? (fun j =>
      if litAtCI s (base + j) (str "href") then
        let w1 := runLen isSpaceCode s (base + j + 4)
        if s.get? (base + j + 4 + w1) == some 61 then
          let w2 := runLen isSpaceCode s (base + j + 4 + w1 + 1)
          let q := base + j + 4 + w1 + 1 + w2
          if (s.get? q == some 34) || (s.get? q == some 39) then
            let t2 := runLen (fun c => c != 34 && c != 39) s (q + 1)
            if (s.get? (q + 1 + t2) == some 34) || (s.get? (q + 1 + t2) == some 39) then
              let t3 := runLen (fun c => c != 62) s (q + 1 + t2 + 1)
              if 1 ≤ t3 && s.get? (q + 1 + t2 + 1 + t3 - 1) == some 63
                  && s.get? (q + 1 + t2 + 1 + t3) == some 62 then
                some (q + 1 + t2 + 1 + t3 + 1 - pos)
              else none
            else none
          else none
        else none
      else none))
  else none

/-! ### In-place same-length rewrites

Every mutation of the source is a loop `cleaned[match.index + i] = …`
over the match span.  We represent one such loop as an `Edit` (start
offset plus the bytes written, one per match character) and apply edits
sequentially in source order.  `List.set` ignores out-of-range indices,
exactly as assignment to a `Uint8Array` does. -/

/-- One in-place rewrite: `data` is written byte-for-byte starting at
`start`; `data.length` always equals the length of the regex match. -/
structure Edit where
  start : Nat
  data : List Nat
deriving DecidableEq, Repr

/-- Write `data` into `b` starting at index `i` (the per-match write loop
of the source). -/
def writeBytes : Bytes → Nat → List Nat → Bytes
  | b, _, [] => b
  | b, i, d :: ds => writeBytes (b.set i d) (i + 1) ds

/-- Apply a list of edits left to right (the source applies each rule's
writes in rule order, later writes overwriting earlier ones). -/
def applyEdits (b : Bytes) (edits : List Edit) : Bytes :=
  edits.foldl (fun acc e => writeBytes acc e.start e.data) b

/-- The write loop of STEPs 3, 5, 6, 7: copy `repl` into the span, pad the
tail with spaces; when `repl` is longer than the span it is truncated. -/
def padTrunc (repl : List Nat) (len : Nat) : List Nat :=
  repl.take len ++ List.replicate (len - repl.length) 32

/-- Blanking a span with ASCII spaces (STEPs 1, 2, 4, 7, 8). -/
def blankData (len : Nat) : List Nat :=
  List.replicate len 32

/-- The three cleaning options of the worker. -/
structure CleaningOptions where
  removeLinks : Bool
  removeForms : Bool
  removeJavascript : Bool
deriving DecidableEq, Repr

/-- The matches of one rule that pass the `isProtected` guard of its
per-match loop. -/
def ruleMatches (s : Bytes) (ranges : List StreamRange)
    (matchAt : Bytes → Nat → Option Nat) : List (Nat × Nat) :=
  (execAll (matchAt s) s).filter (fun m => !(isProtected m.1 ranges))

/-- One per-match rule loop of `cleanPDFBytes`: for every unprotected
match, one same-length write (built by `mkData` from the original string,
the match offset and the match length) and one report item. -/
def applyRule (s : Bytes) (ranges : List StreamRange)
    (matchAt : Bytes → Nat → Option Nat)
    (mkData : Bytes → Nat → Nat → List Nat)
    (item : String) : List Edit × List String :=
  let ms := ruleMatches s ranges matchAt
  (ms.map (fun m => ⟨m.1, mkData s m.1 m.2⟩), ms.map (fun _ => item))

/-- Replacement data of the STEP 5 action rule: the captured `/S\s+`
prefix followed by `/Next `, written over the span and padded with spaces
(for `/URI` the span is shorter than the replacement, which the write loop
truncates). -/
def mkActionData (s : Bytes) (pos len : Nat) : List Nat :=
  let w := runLen isSpaceCode s (pos + 2)
  let pre := sliceB s pos (2 + w)
  padTrunc (pre ++ str "/Next ") len

/-- Replacement data of the STEP 4 submit-URL rule: the matched tag with
every `https?://…` occurrence replaced by `about:blank` padded (or
truncated) to the URL's length. -/
def mkSubmitUrlData (s : Bytes) (pos len : Nat) : List Nat :=
  let tagBytes := sliceB s pos len
  applyEdits tagBytes
    ((execAll (matchHttpUrl uncStopChar tagBytes) tagBytes).map
      (fun m => ⟨m.1, padTrunc (str "about:blank") m.2⟩))

/-- Constant replacement data ignoring the match content. -/
def mkConstData (repl : List Nat) (_s : Bytes) (_pos len : Nat) : List Nat :=
  padTrunc repl len

/-- Blanking replacement data. -/
def mkBlankData (_s : Bytes) (_pos len : Nat) : List Nat :=
  blankData len

/-- STEP 5's active action-type set: the seven dangerous types when
`removeLinks`, `/JavaScript` alone otherwise (note: STEP 5 is not gated on
`removeJavascript`). -/
def actionTypes (options : CleaningOptions) : List String :=
  if options.removeLinks then
    ["/URI", "/Launch", "/GoToR", "/GoToE", "/SubmitForm", "/ImportData", "/JavaScript"]
  else ["/JavaScript"]

/-- The bare-URL matches of STEP 7 (and of the final sweep): unprotected
`https?://…` matches whose 30-byte look-behind does not contain `xmlns=`
or `xmlns:`. -/
def bareUrlMatches (s : Bytes) (ranges : List StreamRange) : List (Nat × Nat) :=
  (execAll (matchHttpUrl urlStopChar s) s).filter
    (fun m => !(isProtected m.1 ranges) && !(xmlnsBefore s m.1))

/-- STEP 7 (shared with the final sweep of the structural path): blank UNC
URLs, rewrite bare URLs to padded `about:blank`, and report the aggregate
count once when positive. -/
def urlSweepStep (s : Bytes) (ranges : List StreamRange)
    (item : Nat → String) : List Edit × List String :=
  let uncMs := ruleMatches s ranges matchUncUrl
  let urlMs := bareUrlMatches s ranges
  let urlCount := uncMs.length + urlMs.length
  (uncMs.map (fun m => ⟨m.1, blankData m.2⟩)
     ++ urlMs.map (fun m => ⟨m.1, padTrunc (str "about:blank") m.2⟩),
   if 0 < urlCount then [item urlCount] else [])

/-- The rule catalog of `cleanPDFBytes`, in source order: each entry is
the edits and report items of one rule loop; option-gated rules contribute
nothing when their option is off. -/
def cleanSteps (pdfStr : Bytes) (ranges : List StreamRange)
    (options : CleaningOptions) : List (List Edit × List String) :=
  [ -- STEP 1: /OpenAction (always)
    applyRule pdfStr ranges matchOpenAction mkBlankData
      "Removed OpenAction (byte-level)",
    -- STEP 2: /AA
    (if options.removeJavascript || options.removeLinks then
      applyRule pdfStr ranges (matchKeyDict (str "/AA")) mkBlankData
        "Removed Additional Actions (byte-level)"
    else ([], [])),
    -- STEP 3: /Names … /JavaScript
    (if options.removeJavascript then
      applyRule pdfStr ranges matchNamesJs (mkConstData (str "/Names<<>>"))
        "Removed JavaScript name tree (byte-level)"
    else ([], [])),
    -- STEP 4: /XFA reference
    (if options.removeForms then
      applyRule pdfStr ranges matchXfaRef mkBlankData
        "Removed XFA form reference (byte-level)"
    else ([], [])) ]
  ++ -- STEP 4: XFA submit URLs (four patterns)
  ([(str "<submit", str "target"), (str "<submit", str "href"),
    (str "<xdp:submit", str "target"), (str "<xdp:submit", str "href")].map
    (fun p =>
      if options.removeForms then
        applyRule pdfStr ranges (matchSubmitUrlTag p.1 p.2) mkSubmitUrlData
          "Removed XFA URL (byte-level)"
      else ([], [])))
  ++ -- STEP 4: submit tags (four patterns)
  ([matchLazyTag (str "<submit"), matchLitCI (str "</submit>"),
    matchLazyTag (str "<xdp:submit"), matchLitCI (str "</xdp:submit>")].map
    (fun m =>
      if options.removeForms then
        applyRule pdfStr ranges m mkBlankData
          "Removed XDP submit tag (byte-level)"
      else ([], [])))
  ++ [ -- STEP 4: xml-stylesheet
    (if options.removeForms then
      applyRule pdfStr ranges matchStylesheet mkBlankData
        "Removed XML stylesheet (byte-level)"
    else ([], [])) ]
  ++ -- STEP 5: neutralize action types (always, over the active set)
  ((actionTypes options).map (fun t =>
    applyRule pdfStr ranges (matchAction (str t)) mkActionData
      ("Neutralized " ++ t.drop 1 ++ " action (byte-level)")))
  ++ [ -- STEP 6: /JS literal bodies
    (if options.removeJavascript then
      applyRule pdfStr ranges matchJsLit (mkConstData (str "/JS()"))
        "Removed JavaScript code (byte-level)"
    else ([], [])),
    -- STEP 7: UNC and bare URLs
    (if options.removeLinks then
      urlSweepStep pdfStr ranges
        (fun n => "Removed " ++ toString n ++ " external URLs (byte-level)")
    else ([], [])),
    -- STEP 8: /AcroForm
    (if options.removeForms then
      applyRule pdfStr ranges (matchKeyDict (str "/AcroForm")) mkBlankData
        "Removed AcroForm (byte-level)"
    else ([], [])) ]

/-- All edits and report items of `cleanPDFBytes`, in application order. -/
def cleanPDFBytesPlan (pdfBytes : Bytes) (options : CleaningOptions) :
    List Edit × List String :=
  let ranges := findProtectedStreams pdfBytes
  let pdfStr := bytesToString pdfBytes
  let steps := cleanSteps pdfStr ranges options
  ((steps.map (fun st => st.1)).flatten, (steps.map (fun st => st.2)).flatten)

/-- Result record of `cleanPDFBytes`. -/
structure CleanBytesResult where
  cleaned : Bytes
  itemsRemoved : List String
  warning : Option String
deriving DecidableEq, Repr

/-- `cleanPDFBytes`: the byte-level fallback cleaner.  It copies the
input, converts it once to a Latin-1 string, computes the protected
stream regions, and applies the rule catalog's same-length rewrites to
the copy.  The `warnings` array of the source is never pushed to, so the
returned warning is always absent. -/
def cleanPDFBytes (pdfBytes : Bytes) (options : CleaningOptions) :
    CleanBytesResult :=
  let plan := cleanPDFBytesPlan pdfBytes options
  { cleaned := applyEdits pdfBytes plan.1
    itemsRemoved := plan.2
    warning := none }

/-! ### The orchestrator (`cleanPDF` and the worker message handler)

The structural pass runs the external `pdf-lib` parser; its outcome
(saved bytes, items and warnings, or a thrown error message) enters the
embedding as an explicit `Except` value.  The final URL sweep after a
successful structural save, the fallback to `cleanPDFBytes`, and the
total-failure handler are repository code and are embedded directly. -/

/-- Outcome of the `pdf-lib` structural phase (STEPs 1-6 of `cleanPDF`),
abstracted: the serialized bytes, the items removed so far and the
accumulated warnings. -/
structure StructuralOutcome where
  savedBytes : Bytes
  itemsRemoved : List String
  warnings : List String
deriving DecidableEq, Repr

/-- STEP 7 of `cleanPDF`: the final URL cleanup over the saved bytes, with
the same protection, UNC and xmlns rules as STEP 7 of `cleanPDFBytes`;
the rewritten buffer is used only when at least one URL was hit. -/
def finalUrlSweep (savedPdfBytes : Bytes) : Bytes × List String :=
  let ranges := findProtectedStreams savedPdfBytes
  let pdfStr := bytesToString savedPdfBytes
  let sweep := urlSweepStep pdfStr ranges
    (fun n => "Removed " ++ toString n ++ " external URLs from final PDF")
  if sweep.2.isEmpty then (savedPdfBytes, [])
  else (applyEdits savedPdfBytes sweep.1, sweep.2)

/-- Result record of `cleanPDF` (the blob holds the returned bytes). -/
structure CleanPDFResult where
  bytes : Bytes
  itemsRemoved : List String
  warning : Option String
deriving DecidableEq, Repr

/-- `cleanPDF`: try the structural pass; on success run the final URL
sweep (when `removeLinks`) and merge reports; on a `pdf-lib` error fall
back to `cleanPDFBytes` on the original bytes, with the parser failure
surfaced through the warning. -/
def cleanPDF (pdfBytes : Bytes) (options : CleaningOptions)
    (structural : Except String StructuralOutcome) : CleanPDFResult :=
  match structural with
  | Except.ok r =>
    let sweep := if options.removeLinks then finalUrlSweep r.savedBytes
                 else (r.savedBytes, [])
    { bytes := sweep.1
      itemsRemoved := r.itemsRemoved ++ sweep.2
      warning := if r.warnings.isEmpty then none
                 else some (String.intercalate "; " r.warnings) }
  | Except.error msg =>
    let result := cleanPDFBytes pdfBytes options
    { bytes := result.cleaned
      itemsRemoved := result.itemsRemoved
      warning := some (result.warning.getD ("Used byte-level fallback: " ++ msg)) }

/-- The message posted back by the worker. -/
structure WorkerResponse where
  success : Bool
  bytes : Bytes
  itemsRemoved : List String
  warning : Option String
deriving DecidableEq, Repr

/-- The worker's `onmessage` handler: run `cleanPDF` inside a catch-all;
on any uncaught error post the original file back with an empty removal
list and a `Could not clean PDF: <cause>` warning.  The attempt is the
`Except`-typed outcome of the guarded block. -/
def selfOnmessage (pdfBytes : Bytes) (_options : CleaningOptions)
    (attempt : Except String CleanPDFResult) : WorkerResponse :=
  match attempt with
  | Except.ok result =>
    { success := true
      bytes := result.bytes
      itemsRemoved := result.itemsRemoved
      warning := result.warning }
  | Except.error msg =>
    { success := true
      bytes := pdfBytes
      itemsRemoved := []
      warning := some ("Could not clean PDF: " ++ msg) }

/-! ### The structural path's annotation filtering

`cleanPDF`'s STEP 5 walks each page's `/Annots` through the `pdf-lib`
object model.  We embed the object model shallowly (dictionaries as
association lists, indirect references as numbered pairs) and the
repository's filtering logic directly; `pdf-lib`'s `toString` on objects
is modelled with its standard rendering (`/Name`, `(string)`, `N G R`,
space-separated arrays). -/

/-- A `pdf-lib` PDF object (the constructors the worker's logic touches).
`name "Link"` plays `PDFName.of('Link')`; its `toString` is `/Link`. -/
inductive PDFObject where
  | name (s : String)
  | pdfString (s : String)
  | number (n : Int)
  | dict (entries : List (String × PDFObject))
  | array (elems : List PDFObject)
  | ref (objectNumber generationNumber : Nat)
  | null
deriving Repr

mutual

/-- Structural equality on PDF objects. -/
def objEq : PDFObject → PDFObject → Bool
  | .name a, .name b => a == b
  | .pdfString a, .pdfString b => a == b
  | .number a, .number b => a == b
  | .dict a, .dict b => entriesEq a b
  | .array a, .array b => objListEq a b
  | .ref a c, .ref b d => a == b && c == d
  | .null, .null => true
  | _, _ => false

/-- Structural equality on dictionary entry lists. -/
def entriesEq : List (String × PDFObject) → List (String × PDFObject) → Bool
  | [], [] => true
  | (k, v) :: a, (l, w) :: b => k == l && objEq v w && entriesEq a b
  | _, _ => false

/-- Structural equality on object lists. -/
def objListEq : List PDFObject → List PDFObject → Bool
  | [], [] => true
  | v :: a, w :: b => objEq v w && objListEq a b
  | _, _ => false

end

instance : BEq PDFObject := ⟨objEq⟩

mutual

/-- `toString` of a `pdf-lib` object (modelled rendering; only names,
strings and reference triples are inspected by the worker's checks). -/
def objToString : PDFObject → String
  | .name s => "/" ++ s
  | .pdfString s => "(" ++ s ++ ")"
  | .number n => toString n
  | .dict entries =>
    "<< " ++ String.intercalate " " (entriesToStrings entries) ++ " >>"
  | .array elems =>
    "[ " ++ String.intercalate " " (objListToStrings elems) ++ " ]"
  | .ref n g => toString n ++ " " ++ toString g ++ " R"
  | .null => "null"

/-- Rendering of dictionary entries. -/
def entriesToStrings : List (String × PDFObject) → List String
  | [] => []
  | (k, v) :: rest => ("/" ++ k ++ " " ++ objToString v) :: entriesToStrings rest

/-- Rendering of an object list. -/
def objListToStrings : List PDFObject → List String
  | [] => []
  | v :: rest => objToString v :: objListToStrings rest

end

/-- `dict.get(PDFName.of(key))`. -/
def dictGet (entries : List (String × PDFObject)) (key : String) :
    Option PDFObject :=
  (entries.find? (fun e => e.1 == key)).map (fun e => e.2)

/-- The worker's `context`: indirect objects by (object, generation). -/
abbrev PDFContext := List ((Nat × Nat) × PDFObject)

/-- `safeLookup`: `context.lookup(ref)` with its try/catch collapsing any
failure to `undefined`. -/
def safeLookup (context : PDFContext) (n g : Nat) : Option PDFObject :=
  (context.find? (fun e => e.1 == (n, g))).map (fun e => e.2)

/-- `a.includes(b)` on Lean strings (for the destination checks). -/
def strContains (s sub : String) : Bool :=
  containsSub (str s) (str sub)

/-- Lines 551-572: a `/Link` annotation's `/A` action is external iff it
is a dictionary whose `/S` is one of the six always-external types, or is
`/GoTo` with a destination stringifying to a remote URL. -/
def linkIsExternal (action : PDFObject) : Bool :=
  match action with
  | .dict entries =>
    let sName := (dictGet entries "S").map objToString
    if ["/URI", "/Launch", "/GoToR", "/GoToE", "/SubmitForm", "/ImportData"].contains
        (sName.getD "") then
      true
    else if sName == some "/GoTo" then
      match dictGet entries "D" with
      | some d =>
        let dStr := objToString d
        strContains dStr "http://" || strContains dStr "https://"
          || strContains dStr "ftp://"
      | none => false
    else false
  | _ => false

/-- Accumulator of the per-page `/Annots` rebuild: the new array, the
report items, and the context's next free object number (for
`context.allocate`). -/
structure AnnotAcc where
  newAnnots : List PDFObject
  itemsRemoved : List String
  nextObjectNumber : Nat
deriving Repr

/-- Lines 530-599 (array format), one element: resolve a reference
through `safeLookup`, drop external links / widgets per the options, keep
reference entries unchanged and re-allocate direct dictionaries; entries
that do not resolve to a dictionary are not pushed. -/
def processAnnotElem (options : CleaningOptions) (context : PDFContext)
    (acc : AnnotAcc) (annotRef : PDFObject) : AnnotAcc :=
  let annot : Option PDFObject :=
    match annotRef with
    | .ref n g => safeLookup context n g
    | other => some other
  match annot with
  | some (.dict entries) =>
    let subtypeName := (dictGet entries "Subtype").map objToString
    let linkRemove : Bool × List String :=
      if options.removeLinks && subtypeName == some "/Link" then
        match dictGet entries "A" with
        | some action =>
          if linkIsExternal action then
            (true, ["Removed external link annotation"])
          else (false, [])
        | none => (false, [])
      else (false, [])
    let widgetRemove : Bool × List String :=
      if options.removeForms && subtypeName == some "/Widget" then
        (true, ["Removed form widget annotation"])
      else (false, [])
    let itemsRemoved := acc.itemsRemoved ++ linkRemove.2 ++ widgetRemove.2
    if linkRemove.1 || widgetRemove.1 then
      { acc with itemsRemoved := itemsRemoved }
    else
      match annotRef with
      | .ref n g =>
        { acc with newAnnots := acc.newAnnots ++ [.ref n g]
                   itemsRemoved := itemsRemoved }
      | _ =>
        { acc with newAnnots := acc.newAnnots ++ [.ref acc.nextObjectNumber 0]
                   itemsRemoved := itemsRemoved
                   nextObjectNumber := acc.nextObjectNumber + 1 }
  | _ => acc

/-- Lines 600-626 (single-reference format): any `/Link` is dropped when
`removeLinks` is set (no action inspection), any `/Widget` when
`removeForms`; otherwise the reference itself is kept. -/
def processAnnotSingleRef (options : CleaningOptions) (context : PDFContext)
    (n g : Nat) : List PDFObject × List String :=
  match safeLookup context n g with
  | some (.dict entries) =>
    let subtypeName := (dictGet entries "Subtype").map objToString
    let linkRemove : Bool × List String :=
      if options.removeLinks && subtypeName == some "/Link" then
        (true, ["Removed link annotation"])
      else (false, [])
    let widgetRemove : Bool × List String :=
      if options.removeForms && subtypeName == some "/Widget" then
        (true, ["Removed form widget annotation"])
      else (false, [])
    if linkRemove.1 || widgetRemove.1 then ([], linkRemove.2 ++ widgetRemove.2)
    else ([.ref n g], [])
  | _ => ([], [])

/-- The rebuilt `/Annots` array and report items for one page. -/
structure AnnotsResult where
  newAnnots : List PDFObject
  itemsRemoved : List String
deriving Repr

/-- Lines 521-632: rebuild a page's `/Annots`.  Array and single-reference
formats are handled by the branches above; any other format yields the
empty replacement array (the page's `/Annots` is set to `newAnnots`
unconditionally). -/
def processAnnots (options : CleaningOptions) (context : PDFContext)
    (annots : PDFObject) (nextObjectNumber : Nat) : AnnotsResult :=
  match annots with
  | .array elems =>
    let acc := elems.foldl (processAnnotElem options context)
      ⟨[], [], nextObjectNumber⟩
    ⟨acc.newAnnots, acc.itemsRemoved⟩
  | .ref n g =>
    let r := processAnnotSingleRef options context n g
    ⟨r.1, r.2⟩
  | _ => ⟨[], []⟩

/-- Modelled from the spec: claim C7's drop condition in the spec's own
words — the annotation's `/A` action has `/S` in
`/URI /Launch /GoToR /GoToE /SubmitForm /ImportData`, or `/S == /GoTo`
and the destination `/D` stringifies to contain `http://`, `https://`,
or `ftp://`.  Used only to compare the array-branch behaviour against the
spec sentence. -/
def specLinkShouldDrop (entries : List (String × PDFObject)) : Bool :=
  match dictGet entries "A" with
  | some (.dict a) =>
    (match dictGet a "S" with
     | some s =>
       ["/URI", "/Launch", "/GoToR", "/GoToE", "/SubmitForm", "/ImportData"].contains
           (objToString s)
         || (objToString s == "/GoTo" &&
             (match dictGet a "D" with
              | some d =>
                strContains (objToString d) "http://"
                  || strContains (objToString d) "https://"
                  || strContains (objToString d) "ftp://"
              | none => false))
     | none => false)
  | _ => false

/-! ### Concrete buffers used by the counterexamples and witnesses -/

/-- All three options enabled. -/
def allOn : CleaningOptions := ⟨true, true, true⟩

/-- All three options disabled. -/
def allOff : CleaningOptions := ⟨false, false, false⟩

/-- Only `removeLinks`. -/
def linksOnly : CleaningOptions := ⟨true, false, false⟩

/-- Only `removeJavascript`. -/
def jsOnly : CleaningOptions := ⟨false, false, true⟩

/-- An `/OpenAction` dictionary whose non-nested `<<…>>` match spans into
a binary `stream … endstream` region (the region holds the bytes `AB`). -/
def exSpanningDict : Bytes := str "/OpenAction <</X stream\nAB>>endstream"

/-- A buffer whose only content is a JavaScript action. -/
def exJsAction : Bytes := str "/S /JavaScript"

/-- An `/AA` dictionary carrying an XML-namespace URL. -/
def exXmlnsInAA : Bytes := str "/AA <</X xmlns=\"http://a\">>"

/-- An `/AA` dictionary that swallows a `stream` keyword, hiding a
protected `/S /JavaScript` occurrence that a second pass will see
unprotected. -/
def exAAStream : Bytes := str "/AA <<stream\n>>/S /JavaScript endstream"

/-- A bare `/S /URI` action span. -/
def exUriAction : Bytes := str "/S /URI"

/-- Nested `stream` keywords: both regions end at the same `endstream`. -/
def exNestedStreams : Bytes := str "stream\nXstream\nYendstream"

/-- Two well-separated streams (disjoint regions). -/
def exTwoStreams : Bytes := str "stream\nA endstream stream\nB endstream"

/-- An empty JavaScript literal `/JS()`: matched and reported, but the
replacement writes back the identical bytes. -/
def exEmptyJs : Bytes := str "/JS()"

/-- A buffer with no sanitizable content at all. -/
def exClean : Bytes := str "hello"

/-- A buffer whose only content is a bare URL. -/
def exBareUrl : Bytes := str "See http://x now"

/-- A context holding one `/Link` annotation whose `/GoTo` action is
internal (destination `(section2)`). -/
def exInternalLinkCtx : PDFContext :=
  [((5, 0), .dict [("Subtype", .name "Link"),
                   ("A", .dict [("S", .name "GoTo"),
                                ("D", .pdfString "section2")])])]

/-- The entries of the internal-link annotation above. -/
def exInternalLinkEntries : List (String × PDFObject) :=
  [("Subtype", .name "Link"),
   ("A", .dict [("S", .name "GoTo"), ("D", .pdfString "section2")])]

/-- A context holding one `/Link` annotation with a `/URI` action. -/
def exUriLinkCtx : PDFContext :=
  [((7, 0), .dict [("Subtype", .name "Link"),
                   ("A", .dict [("S", .name "URI"),
                                ("URI", .pdfString "https://evil.example/x")])])]

/-- The entries of the `/URI`-link annotation above. -/
def exUriLinkEntries : List (String × PDFObject) :=
  [("Subtype", .name "Link"),
   ("A", .dict [("S", .name "URI"), ("URI", .pdfString "https://evil.example/x")])]

/-! ## Helper lemmas -/

theorem padTrunc_length (repl : List Nat) (len : Nat) :
    (padTrunc repl len).length = len := by
  simp only [padTrunc, List.length_append, List.length_take, List.length_replicate]
  omega

theorem writeBytes_length : ∀ (d : List Nat) (b : Bytes) (i : Nat),
    (writeBytes b i d).length = b.length
  | [], _, _ => rfl
  | x :: ds, b, i => by
    show (writeBytes (b.set i x) (i + 1) ds).length = b.length
    rw [writeBytes_length ds, List.length_set]

theorem applyEdits_length : ∀ (es : List Edit) (b : Bytes),
    (applyEdits b es).length = b.length
  | [], _ => rfl
  | e :: es, b => by
    show (applyEdits (writeBytes b e.start e.data) es).length = b.length
    rw [applyEdits_length es, writeBytes_length]

theorem writeBytes_get?_outside : ∀ (d : List Nat) (b : Bytes) (i j : Nat),
    (j < i ∨ i + d.length ≤ j) → (writeBytes b i d).get? j = b.get? j
  | [], _, _, _, _ => rfl
  | x :: ds, b, i, j, h => by
    have hlen : (x :: ds).length = ds.length + 1 := List.length_cons x ds
    have h1 : j < i + 1 ∨ (i + 1) + ds.length ≤ j := by
      rcases h with h | h
      · exact Or.inl (by omega)
      · rw [hlen] at h; exact Or.inr (by omega)
    have h2 : i ≠ j := by
      rcases h with h | h
      · omega
      · rw [hlen] at h; omega
    show (writeBytes (b.set i x) (i + 1) ds).get? j = b.get? j
    rw [writeBytes_get?_outside ds (b.set i x) (i + 1) j h1]
    exact List.get?_set_ne x b h2

theorem applyEdits_get?_outside : ∀ (es : List Edit) (b : Bytes) (j : Nat),
    (∀ e ∈ es, j < e.start ∨ e.start + e.data.length ≤ j) →
    (applyEdits b es).get? j = b.get? j
  | [], _, _, _ => rfl
  | e :: es, b, j, h => by
    show (applyEdits (writeBytes b e.start e.data) es).get? j = b.get? j
    rw [applyEdits_get?_outside es _ j (fun f hf => h f (List.mem_cons_of_mem e hf))]
    exact writeBytes_get?_outside e.data b e.start j (h e (List.mem_cons_self e es))

theorem ruleMatches_unprotected (s : Bytes) (ranges : List StreamRange)
    (matchAt : Bytes → Nat → Option Nat) (m : Nat × Nat)
    (hm : m ∈ ruleMatches s ranges matchAt) :
    isProtected m.1 ranges = false := by
  have h := (List.mem_filter.mp hm).2
  simpa using h

theorem bareUrlMatches_unprotected (s : Bytes) (ranges : List StreamRange)
    (m : Nat × Nat) (hm : m ∈ bareUrlMatches s ranges) :
    isProtected m.1 ranges = false := by
  have h := (List.mem_filter.mp hm).2
  rw [Bool.and_eq_true] at h
  simpa using h.1

theorem applyRule_unprotected (s : Bytes) (ranges : List StreamRange)
    (matchAt : Bytes → Nat → Option Nat)
    (mkData : Bytes → Nat → Nat → List Nat) (item : String) (e : Edit)
    (he : e ∈ (applyRule s ranges matchAt mkData item).1) :
    isProtected e.start ranges = false := by
  simp only [applyRule, List.mem_map] at he
  obtain ⟨m, hm, rfl⟩ := he
  exact ruleMatches_unprotected s ranges matchAt m hm

theorem applyRule_items_nil (s : Bytes) (ranges : List StreamRange)
    (matchAt : Bytes → Nat → Option Nat)
    (mkData : Bytes → Nat → Nat → List Nat) (item : String)
    (h : (applyRule s ranges matchAt mkData item).2 = []) :
    (applyRule s ranges matchAt mkData item).1 = [] := by
  simp only [applyRule, List.map_eq_nil] at h ⊢
  exact h

theorem urlSweepStep_unprotected (s : Bytes) (ranges : List StreamRange)
    (item : Nat → String) (e : Edit)
    (he : e ∈ (urlSweepStep s ranges item).1) :
    isProtected e.start ranges = false := by
  simp only [urlSweepStep, List.mem_append, List.mem_map] at he
  rcases he with ⟨m, hm, rfl⟩ | ⟨m, hm, rfl⟩
  · exact ruleMatches_unprotected s ranges matchUncUrl m hm
  · exact bareUrlMatches_unprotected s ranges m hm

theorem urlSweepStep_items_nil (s : Bytes) (ranges : List StreamRange)
    (item : Nat → String)
    (h : (urlSweepStep s ranges item).2 = []) :
    (urlSweepStep s ranges item).1 = [] := by
  simp only [urlSweepStep] at h ⊢
  split at h
  · exact absurd h (by simp)
  · rename_i hc
    have h1 : (ruleMatches s ranges matchUncUrl).length = 0 := by omega
    have h2 : (bareUrlMatches s ranges).length = 0 := by omega
    rw [List.length_eq_zero] at h1 h2
    rw [h1, h2]
    rfl

/-- Both structural facts about one entry of the rule catalog: its edits
start at unprotected offsets, and no edits exist without report items. -/
theorem cleanSteps_sound (pdfStr : Bytes) (ranges : List StreamRange)
    (options : CleaningOptions) (st : List Edit × List String)
    (hst : st ∈ cleanSteps pdfStr ranges options) :
    (∀ e ∈ st.1, isProtected e.start ranges = false) ∧
    (st.2 = [] → st.1 = []) := by
  have hrule : ∀ (matchAt : Bytes → Nat → Option Nat)
      (mkData : Bytes → Nat → Nat → List Nat) (item : String),
      (∀ e ∈ (applyRule pdfStr ranges matchAt mkData item).1,
        isProtected e.start ranges = false) ∧
      ((applyRule pdfStr ranges matchAt mkData item).2 = [] →
        (applyRule pdfStr ranges matchAt mkData item).1 = []) :=
    fun matchAt mkData item =>
      ⟨fun e he => applyRule_unprotected pdfStr ranges matchAt mkData item e he,
       applyRule_items_nil pdfStr ranges matchAt mkData item⟩
  have hifRule : ∀ (c : Bool) (matchAt : Bytes → Nat → Option Nat)
      (mkData : Bytes → Nat → Nat → List Nat) (item : String),
      (∀ e ∈ (if c then applyRule pdfStr ranges matchAt mkData item
              else ([], [])).1, isProtected e.start ranges = false) ∧
      ((if c then applyRule pdfStr ranges matchAt mkData item
        else ([], [])).2 = [] →
       (if c then applyRule pdfStr ranges matchAt mkData item
        else ([], [])).1 = []) := by
    intro c matchAt mkData item
    cases c
    · simp
    · simpa using hrule matchAt mkData item
  simp only [cleanSteps, List.mem_append, List.mem_cons, List.mem_map,
    List.not_mem_nil, or_false] at hst
  rcases hst with (((((rfl | rfl | rfl | rfl) | ⟨p, hp, rfl⟩) | ⟨m, hm, rfl⟩) | rfl)
    | ⟨t, ht, rfl⟩) | rfl | rfl | rfl
  · exact hrule _ _ _
  · exact hifRule _ _ _ _
  · exact hifRule _ _ _ _
  · exact hifRule _ _ _ _
  · exact hifRule _ _ _ _
  · exact hifRule _ _ _ _
  · exact hifRule _ _ _ _
  · exact hrule _ _ _
  · exact hifRule _ _ _ _
  · cases hl : options.removeLinks
    · simp [hl]
    · constructor
      · intro e he
        rw [if_pos rfl] at he
        exact urlSweepStep_unprotected pdfStr ranges _ e he
      · intro h
        rw [if_pos rfl] at h ⊢
        exact urlSweepStep_items_nil pdfStr ranges _ h
  · exact hifRule _ _ _ _

theorem plan_unprotected (b : Bytes) (o : CleaningOptions) (e : Edit)
    (he : e ∈ (cleanPDFBytesPlan b o).1) :
    isProtected e.start (findProtectedStreams b) = false := by
  simp only [cleanPDFBytesPlan, List.mem_flatten, List.mem_map] at he
  obtain ⟨l, ⟨st, hst, rfl⟩, hel⟩ := he
  exact (cleanSteps_sound (bytesToString b) (findProtectedStreams b) o st hst).1 e hel

theorem cleanPDFBytes_items_nil (b : Bytes) (o : CleaningOptions)
    (h : (cleanPDFBytes b o).itemsRemoved = []) :
    (cleanPDFBytes b o).cleaned = b := by
  have hplan : (cleanPDFBytesPlan b o).1 = [] := by
    have hit : (cleanPDFBytesPlan b o).2 = [] := h
    simp only [cleanPDFBytesPlan, List.flatten_eq_nil_iff, List.mem_map] at hit ⊢
    intro l hl
    obtain ⟨st, hst, rfl⟩ := hl
    exact (cleanSteps_sound (bytesToString b) (findProtectedStreams b) o st hst).2
      (hit st.2 ⟨st, hst, rfl⟩)
  show applyEdits b (cleanPDFBytesPlan b o).1 = b
  rw [hplan]
  rfl

theorem execAllGo_ge (matchAt : Nat → Option Nat) :
    ∀ (fuel pos : Nat) (m : Nat × Nat),
      m ∈ execAllGo matchAt fuel pos → pos ≤ m.1
  | 0, _, m, h => absurd h (List.not_mem_nil m)
  | fuel + 1, pos, m, h => by
    rw [execAllGo] at h
    cases hm : matchAt pos with
    | some len =>
      rw [hm] at h
      rcases List.mem_cons.mp h with rfl | h
      · exact Nat.le_refl _
      · have := execAllGo_ge matchAt fuel (pos + Nat.max len 1) m h
        omega
    | none =>
      rw [hm] at h
      have := execAllGo_ge matchAt fuel (pos + 1) m h
      omega

theorem execAllGo_pairwise (matchAt : Nat → Option Nat) :
    ∀ (fuel pos : Nat),
      (execAllGo matchAt fuel pos).Pairwise (fun a b => a.1 + a.2 ≤ b.1)
  | 0, _ => List.Pairwise.nil
  | fuel + 1, pos => by
    rw [execAllGo]
    cases hm : matchAt pos with
    | some len =>
      refine List.Pairwise.cons ?_ (execAllGo_pairwise matchAt fuel _)
      intro m hmem
      have h1 := execAllGo_ge matchAt fuel (pos + Nat.max len 1) m hmem
      have h2 : len ≤ Nat.max len 1 := Nat.le_max_left len 1
      omega
    | none => exact execAllGo_pairwise matchAt fuel _

theorem mkStreamRange_start (pdfStr : Bytes) (streamStart : Nat)
    (r : StreamRange) (h : mkStreamRange pdfStr streamStart = some r) :
    r.start = streamStart := by
  unfold mkStreamRange at h
  cases hf : findLitFrom pdfStr (str "endstream") streamStart with
  | none => rw [hf] at h; exact absurd h (by simp)
  | some endIdx =>
    rw [hf] at h
    cases h
    rfl

theorem findProtectedStreams_pairwise (b : Bytes) :
    (findProtectedStreams b).Pairwise (fun r q => r.start ≤ q.start) := by
  have hmatches := execAllGo_pairwise (matchStreamKeyword b) (b.length + 1) 0
  have hstarts :
      ((execAll (matchStreamKeyword b) b).map (fun m => m.1 + m.2)).Pairwise
        (fun x y => x ≤ y) := by
    rw [List.pairwise_map]
    exact hmatches.imp (fun {x y} h => by omega)
  show (((execAll (matchStreamKeyword b) b).map (fun m => m.1 + m.2)).filterMap
    (mkStreamRange b)).Pairwise (fun r q => r.start ≤ q.start)
  rw [List.pairwise_filterMap]
  refine hstarts.imp ?_
  intro x y hxy r hr q hq
  rw [mkStreamRange_start b x r hr, mkStreamRange_start b y q hq]
  exact hxy

theorem findProtectedStreams_start_le (b : Bytes) (i j : Nat)
    (r q : StreamRange) (hij : i < j)
    (hi : (findProtectedStreams b).get? i = some r)
    (hj : (findProtectedStreams b).get? j = some q) :
    r.start ≤ q.start := by
  obtain ⟨hilt, hig⟩ := List.get?_eq_some.mp hi
  obtain ⟨hjlt, hjg⟩ := List.get?_eq_some.mp hj
  have hp := List.pairwise_iff_get.mp (findProtectedStreams_pairwise b)
    ⟨i, hilt⟩ ⟨j, hjlt⟩ hij
  rw [hig, hjg] at hp
  exact hp

/-- The external-link test of the structural path coincides with the drop
condition as the spec words it, whenever the action is the annotation's
`/A` value. -/
theorem linkIsExternal_spec (entries : List (String × PDFObject))
    (action : PDFObject) (hA : dictGet entries "A" = some action) :
    linkIsExternal action = specLinkShouldDrop entries := by
  unfold specLinkShouldDrop
  rw [hA]
  cases action with
  | dict a =>
    unfold linkIsExternal
    cases hS : dictGet a "S" with
    | none => simp [hS]
    | some s =>
      simp only [hS, Option.map_some', Option.getD_some]
      cases hmem : ["/URI", "/Launch", "/GoToR", "/GoToE", "/SubmitForm",
          "/ImportData"].contains (objToString s) with
      | true => simp [hmem]
      | false =>
        simp only [hmem, Bool.false_eq_true, if_false, Bool.false_or]
        cases hgoto : objToString s == "/GoTo" with
        | true =>
          have : (some (objToString s) == some "/GoTo") = true := by
            simpa using hgoto
          simp only [this, if_true, Bool.true_and]
        | false =>
          have : (some (objToString s) == some "/GoTo") = false := by
            simpa using hgoto
          simp [this]
  | name s => rfl
  | pdfString s => rfl
  | number n => rfl
  | array es => rfl
  | ref n g => rfl
  | null => rfl

/-! ## Claim theorems -/

/-- Claim C1: on the byte-level path (the structural parser failed), the
returned byte buffer has exactly the same length as the input buffer —
every rewrite is an in-place same-length write. -/
theorem claim_C1 (pdfBytes : Bytes) (options : CleaningOptions) (msg : String) :
    (cleanPDF pdfBytes options (Except.error msg)).bytes.length
      = pdfBytes.length := by
  show (applyEdits pdfBytes (cleanPDFBytesPlan pdfBytes options).1).length
      = pdfBytes.length
  exact applyEdits_length _ _

/-- Claim C2 is false as stated: the protection guard checks only the
match's start offset, so a match that starts before a binary stream
region and extends into it is rewritten inside the region.  Here the
`/OpenAction <<…>>` span swallows a `stream` keyword; offset 24 is inside
the binary region, holds `A` (65) in the input, and a space (32) in the
output. -/
theorem claim_C2_counterexample :
    isProtected 24 (findProtectedStreams exSpanningDict) = true ∧
    exSpanningDict.get? 24 = some 65 ∧
    (cleanPDF exSpanningDict allOff (Except.error "load failed")).bytes.get? 24
      = some 32 := by
  decide

/-- Claim C2 as amended: a byte inside a binary stream region changes
only when it is covered by some applied rewrite whose start offset is
unprotected; no rewrite ever starts inside a binary region. -/
theorem claim_C2_amended (b : Bytes) (o : CleaningOptions) (i : Nat)
    (hprot : isProtected i (findProtectedStreams b) = true)
    (hchanged : (cleanPDFBytes b o).cleaned.get? i ≠ b.get? i) :
    ∃ e ∈ (cleanPDFBytesPlan b o).1,
      (e.start ≤ i ∧ i < e.start + e.data.length) ∧
      isProtected e.start (findProtectedStreams b) = false := by
  by_contra hno
  push_neg at hno
  apply hchanged
  show (applyEdits b (cleanPDFBytesPlan b o).1).get? i = b.get? i
  apply applyEdits_get?_outside
  intro e he
  rcases Nat.lt_or_ge i e.start with hlt | hge
  · exact Or.inl hlt
  · by_cases hcov : i < e.start + e.data.length
    · exact absurd (plan_unprotected b o e he) (hno e he ⟨hge, hcov⟩)
    · exact Or.inr (Nat.le_of_not_lt hcov)

/-- Witness for the amended claim C2 at the spanning-dictionary buffer
and the protected offset 24. -/
theorem claim_C2_witness :
    isProtected 24 (findProtectedStreams exSpanningDict) = true ∧
    (cleanPDFBytes exSpanningDict allOff).cleaned.get? 24
      ≠ exSpanningDict.get? 24 ∧
    ∃ e ∈ (cleanPDFBytesPlan exSpanningDict allOff).1,
      (e.start ≤ 24 ∧ 24 < e.start + e.data.length) ∧
      isProtected e.start (findProtectedStreams exSpanningDict) = false :=
  ⟨by decide, by decide,
   claim_C2_amended exSpanningDict allOff 24 (by decide) (by decide)⟩

/-- Claim C3 is false as stated: with all three options disabled, STEP 1
(OpenAction removal) and STEP 5 (which always keeps `/JavaScript` in its
active set) still fire.  On `/S /JavaScript` the all-false run reports a
neutralization and rewrites the bytes. -/
theorem claim_C3_counterexample :
    ¬((cleanPDF exJsAction allOff (Except.error "load failed")).itemsRemoved
        = [] ∧
      (cleanPDF exJsAction allOff (Except.error "load failed")).bytes
        = exJsAction) := by
  decide

/-- Claim C3 as amended: with all-false options, only the unconditional
OpenAction rule and the `/S /JavaScript` neutralization can fire; when the
input matches neither pattern, the report is empty and the output equals
the input. -/
theorem claim_C3_amended (b : Bytes) (msg : String)
    (h1 : execAll (matchOpenAction (bytesToString b)) (bytesToString b) = [])
    (h2 : execAll (matchAction (str "/JavaScript") (bytesToString b))
        (bytesToString b) = []) :
    (cleanPDF b allOff (Except.error msg)).itemsRemoved = [] ∧
    (cleanPDF b allOff (Except.error msg)).bytes = b := by
  have hplan : cleanPDFBytesPlan b allOff = ([], []) := by
    simp [cleanPDFBytesPlan, cleanSteps, actionTypes, allOff, applyRule,
      ruleMatches, h1, h2]
  refine ⟨?_, ?_⟩
  · show (cleanPDFBytesPlan b allOff).2 = []
    rw [hplan]
  · show applyEdits b (cleanPDFBytesPlan b allOff).1 = b
    rw [hplan]
    rfl

/-- Witness for the amended claim C3 at a match-free buffer. -/
theorem claim_C3_witness :
    execAll (matchOpenAction (bytesToString exClean)) (bytesToString exClean)
      = [] ∧
    execAll (matchAction (str "/JavaScript") (bytesToString exClean))
      (bytesToString exClean) = [] ∧
    ((cleanPDF exClean allOff (Except.error "load failed")).itemsRemoved = [] ∧
     (cleanPDF exClean allOff (Except.error "load failed")).bytes = exClean) :=
  ⟨by decide, by decide,
   claim_C3_amended exClean "load failed" (by decide) (by decide)⟩

/-- Claim C4 is false as stated: an xmlns-prefixed URL is skipped by the
bare-URL rule, but other rules may still blank the bytes it occupies.
Here the URL sits inside an `/AA <<…>>` dictionary, which STEP 2 blanks
whenever `removeLinks` is set; offset 16 holds `h` (104) in the input and
a space (32) in the output. -/
theorem claim_C4_counterexample :
    xmlnsBefore (bytesToString exXmlnsInAA) 16 = true ∧
    exXmlnsInAA.get? 16 = some 104 ∧
    (cleanPDF exXmlnsInAA linksOnly (Except.error "load failed")).bytes.get? 16
      = some 32 := by
  decide

/-- Claim C4 as amended: the bare-URL rule itself (used by STEP 7 and by
the final sweep of the structural path) never selects a URL whose 30-byte
look-behind contains `xmlns=` or `xmlns:`; such URLs survive unless some
other rule's match covers them. -/
theorem claim_C4_amended (s : Bytes) (ranges : List StreamRange)
    (m : Nat × Nat) (hm : m ∈ bareUrlMatches s ranges) :
    xmlnsBefore s m.1 = false := by
  have h := (List.mem_filter.mp hm).2
  rw [Bool.and_eq_true] at h
  simpa using h.2

/-- Witness for the amended claim C4 at a buffer with a plain URL. -/
theorem claim_C4_witness :
    ((4 : Nat), (8 : Nat)) ∈
      bareUrlMatches (bytesToString exBareUrl) (findProtectedStreams exBareUrl) ∧
    xmlnsBefore (bytesToString exBareUrl) 4 = false :=
  ⟨by decide,
   claim_C4_amended (bytesToString exBareUrl) (findProtectedStreams exBareUrl)
     ((4 : Nat), (8 : Nat)) (by decide)⟩

/-- Claim C5 is false as stated: a first-pass rewrite can blank a
`stream` keyword, dissolving a binary region and unprotecting a match the
first pass skipped; the second pass then rewrites it.  On `exAAStream`
the second pass differs from the first pass's output. -/
theorem claim_C5_counterexample :
    (cleanPDF (cleanPDF exAAStream allOn (Except.error "load failed")).bytes
        allOn (Except.error "load failed")).bytes
      ≠ (cleanPDF exAAStream allOn (Except.error "load failed")).bytes := by
  decide

/-- Claim C5 as amended: idempotence holds when the first byte-level pass
removes nothing — an empty report means the output equals the input, so a
second pass reproduces it. -/
theorem claim_C5_amended (b : Bytes) (o : CleaningOptions)
    (h : (cleanPDFBytes b o).itemsRemoved = []) :
    (cleanPDFBytes (cleanPDFBytes b o).cleaned o).cleaned
      = (cleanPDFBytes b o).cleaned := by
  have hfix := cleanPDFBytes_items_nil b o h
  rw [hfix]
  exact hfix

/-- Witness for the amended claim C5 at a match-free buffer. -/
theorem claim_C5_witness :
    (cleanPDFBytes exClean allOn).itemsRemoved = [] ∧
    (cleanPDFBytes (cleanPDFBytes exClean allOn).cleaned allOn).cleaned
      = (cleanPDFBytes exClean allOn).cleaned :=
  ⟨by decide, claim_C5_amended exClean allOn (by decide)⟩

/-- Claim C6 is false as stated for `/URI`: the span `/S /URI` (7 bytes)
is shorter than the replacement `/S /Next ` (9 bytes), so the write loop
truncates and the output span reads `/S /Nex`, not `/S /Next` followed by
spaces. -/
theorem claim_C6_counterexample :
    (cleanPDFBytes exUriAction linksOnly).cleaned = str "/S /Nex" ∧
    litAt (cleanPDFBytes exUriAction linksOnly).cleaned 0 (str "/S /Next")
      = false := by
  decide

/-- Claim C6 as amended: an unprotected whole-buffer match `/S T` for an
active action type `T` is rewritten to the truncation-or-padding of
`/S /Next ` to the span's length — `/S /Next` plus spaces for the six
types of length at least five, the truncated `/S /Nex` for `/URI`. -/
theorem claim_C6_amended (o : CleaningOptions) (T : String)
    (hT : T ∈ actionTypes o) :
    (cleanPDFBytes (str ("/S " ++ T)) o).cleaned
      = padTrunc (str "/S /Next ") (str ("/S " ++ T)).length := by
  obtain ⟨l, f, j⟩ := o
  cases l <;> cases f <;> cases j
  all_goals simp [actionTypes] at hT
  all_goals rcases hT with rfl | rfl | rfl | rfl | rfl | rfl | rfl <;> decide

/-- Witness for the amended claim C6 at the exactly-fitting `/GoToR`. -/
theorem claim_C6_witness :
    "/GoToR" ∈ actionTypes linksOnly ∧
    (cleanPDFBytes (str ("/S " ++ "/GoToR")) linksOnly).cleaned
      = padTrunc (str "/S /Next ") (str ("/S " ++ "/GoToR")).length :=
  ⟨by decide, claim_C6_amended linksOnly "/GoToR" (by decide)⟩

/-- Claim C7 is false as stated: in the single-reference `/Annots`
branch, any `/Link` annotation is dropped whenever `removeLinks` is set,
without inspecting its action.  This internal `/GoTo` link (destination
`(section2)`) does not satisfy the claim's drop condition, yet it is
removed. -/
theorem claim_C7_counterexample :
    (processAnnots allOn exInternalLinkCtx (.ref 5 0) 100).newAnnots = [] ∧
    (processAnnots allOn exInternalLinkCtx (.ref 5 0) 100).itemsRemoved
      = ["Removed link annotation"] ∧
    specLinkShouldDrop exInternalLinkEntries = false :=
  ⟨rfl, rfl, rfl⟩

/-- Claim C7 as amended: in the array branch, a `/Link` annotation
reached through a reference is dropped exactly when the spec's drop
condition holds, and a kept annotation retains its original reference. -/
theorem claim_C7_amended (options : CleaningOptions) (context : PDFContext)
    (n g num : Nat) (entries : List (String × PDFObject))
    (hlook : safeLookup context n g = some (.dict entries))
    (hsub : dictGet entries "Subtype" = some (.name "Link"))
    (hlinks : options.removeLinks = true) :
    (processAnnots options context (.array [.ref n g]) num).newAnnots
      = (if specLinkShouldDrop entries then [] else [.ref n g]) := by
  show (processAnnotElem options context ⟨[], [], num⟩ (.ref n g)).newAnnots
      = (if specLinkShouldDrop entries then [] else [.ref n g])
  have hlinkname :
      ((dictGet entries "Subtype").map objToString == some "/Link") = true := by
    rw [hsub]; decide
  have hwidget :
      ((dictGet entries "Subtype").map objToString == some "/Widget") = false := by
    rw [hsub]; decide
  cases hA : dictGet entries "A" with
  | none =>
    have hspec : specLinkShouldDrop entries = false := by
      unfold specLinkShouldDrop
      rw [hA]
    simp [processAnnotElem, hlook, hA, hlinks, hlinkname, hwidget, hspec]
  | some action =>
    have hext := linkIsExternal_spec entries action hA
    cases hd : specLinkShouldDrop entries with
    | true =>
      have hx : linkIsExternal action = true := by rw [hext, hd]
      simp [processAnnotElem, hlook, hA, hlinks, hlinkname, hwidget, hx, hd]
    | false =>
      have hx : linkIsExternal action = false := by rw [hext, hd]
      simp [processAnnotElem, hlook, hA, hlinks, hlinkname, hwidget, hx, hd]

/-- Witness for the amended claim C7 at a `/URI` link (dropped). -/
theorem claim_C7_witness :
    safeLookup exUriLinkCtx 7 0 = some (.dict exUriLinkEntries) ∧
    dictGet exUriLinkEntries "Subtype" = some (.name "Link") ∧
    allOn.removeLinks = true ∧
    (processAnnots allOn exUriLinkCtx (.array [.ref 7 0]) 100).newAnnots
      = (if specLinkShouldDrop exUriLinkEntries then [] else [.ref 7 0]) :=
  ⟨rfl, rfl, rfl,
   claim_C7_amended allOn exUriLinkCtx 7 0 100 exUriLinkEntries rfl rfl rfl⟩

/-- Claim C8 is false as stated: each stream keyword is paired with the
first `endstream` at or after it, so a nested `stream` keyword produces
two overlapping regions ending at the same `endstream`.  On
`exNestedStreams` both regions contain offset 15. -/
theorem claim_C8_counterexample :
    findProtectedStreams exNestedStreams
      = [⟨7, 16, none⟩, ⟨15, 16, none⟩] ∧
    ((findProtectedStreams exNestedStreams).countP
      (fun r => decide (r.start ≤ 15 ∧ 15 < r.«end»))) = 2 := by
  decide

/-- Claim C8 as amended: region starts are monotone in index order, and
two regions are disjoint whenever the later one's start does not fall
inside the earlier one — so regions overlap only at nested stream
keywords. -/
theorem claim_C8_amended (b : Bytes) (i j : Nat) (r q : StreamRange)
    (hij : i < j)
    (hi : (findProtectedStreams b).get? i = some r)
    (hj : (findProtectedStreams b).get? j = some q)
    (hsep : ¬(r.start ≤ q.start ∧ q.start < r.«end»))
    (x : Nat) (hx1 : q.start ≤ x) (hx2 : x < q.«end») :
    ¬(r.start ≤ x ∧ x < r.«end») := by
  have hle := findProtectedStreams_start_le b i j r q hij hi hj
  intro hx
  exact hsep ⟨hle, by omega⟩

/-- Witness for the amended claim C8 at two separated streams. -/
theorem claim_C8_witness :
    (findProtectedStreams exTwoStreams).get? 0 = some ⟨7, 9, none⟩ ∧
    (findProtectedStreams exTwoStreams).get? 1 = some ⟨26, 28, none⟩ ∧
    ¬((7 : Nat) ≤ 26 ∧ (26 : Nat) < 9) ∧
    ((26 : Nat) ≤ 27 ∧ (27 : Nat) < 28) ∧
    ¬((7 : Nat) ≤ 27 ∧ (27 : Nat) < 9) :=
  ⟨by decide, by decide, by decide, by decide,
   claim_C8_amended exTwoStreams 0 1 ⟨7, 9, none⟩ ⟨26, 28, none⟩
     (by decide) (by decide) (by decide) (by decide) 27 (by decide) (by decide)⟩

/-- Claim C9: the worker's catch-all returns the original bytes, an empty
removal list and the warning `Could not clean PDF: <cause>` on any
uncaught failure; the handler itself is a total function of its inputs. -/
theorem claim_C9 (pdfBytes : Bytes) (options : CleaningOptions) (msg : String) :
    selfOnmessage pdfBytes options (Except.error msg)
      = { success := true, bytes := pdfBytes, itemsRemoved := [],
          warning := some ("Could not clean PDF: " ++ msg) } := rfl

/-- Claim C10 is false as stated: on `/JS()` the STEP 6 rule fires and
reports `Removed JavaScript code (byte-level)`, yet the replacement
writes back exactly the original bytes — the report entry corresponds to
no byte change. -/
theorem claim_C10_counterexample :
    (cleanPDFBytes exEmptyJs jsOnly).itemsRemoved
      = ["Removed JavaScript code (byte-level)"] ∧
    (cleanPDFBytes exEmptyJs jsOnly).cleaned = exEmptyJs := by
  decide

/-- Claim C10 as amended: every report entry corresponds to an applied
rewrite, which may write identical bytes; in the other direction, an
empty report does imply that the output equals the input. -/
theorem claim_C10_amended (b : Bytes) (o : CleaningOptions)
    (h : (cleanPDFBytes b o).itemsRemoved = []) :
    (cleanPDFBytes b o).cleaned = b :=
  cleanPDFBytes_items_nil b o h

/-- Witness for the amended claim C10 at a match-free buffer. -/
theorem claim_C10_witness :
    (cleanPDFBytes exClean linksOnly).itemsRemoved = [] ∧
    (cleanPDFBytes exClean linksOnly).cleaned = exClean :=
  ⟨by decide, claim_C10_amended exClean linksOnly (by decide)⟩

end CleanPDF
